import Mathlib

/-!
# PSoC 6 MCU "Transition to RMA" example: a shallow embedding of `main.c`

The C program

* decodes the device lifecycle stage from four eFuse bits
  (`ReadDeviceLifecycleStage`),
* copies a JWT into a fixed-size parameter block (`main`, lines 262-273),
* posts the `TransitionToRMA` system call through the IPC mailbox and polls
  the mailbox lock for at most 60 seconds (`TransitionToRMA`),
* repeats the system call on each button press (`main`, lines 278-297).

Machine words are modelled as `Nat`; the only arithmetic the program performs
on them is `elapsedTime++` / `jwtIdx++` (bounded by 60 and by `strlen`), and a
bitwise AND with a constant, so no wrap-around can occur.  Hardware and the
privileged executor are modelled as explicit inputs; every observable action
of the program is recorded in a trace of `Event`s.
-/

namespace TransitionToRma

/-! ## Macros (main.c lines 54-76) -/

def CY_TRANSIT_TO_RMA_OPCODE : Nat := 0x3B000000
def CY_OPCODE_SUCCESS : Nat := 0xA0000000
def CY_OPCODE_STS_Msk : Nat := 0xF0000000

def SUCCESS : Nat := 0
/-- In C, `(!SUCCESS)` is `!0`, which is `1`. -/
def FAILED : Nat := if SUCCESS = 0 then 1 else 0

def JWT_LENGTH : Nat := 367

def DELAY_BUTTON_DEBOUNCE_MS : Nat := 500
def IPC_STATUS_WAIT_TIME_S : Nat := 60
def DELAY_IPC_STATUS_CHECK_MS : Nat := 1000

/-! ## Structures (main.c lines 80-91) -/

structure transit_to_RMA_param_t where
  opCode : Nat
  api_param_addr : Nat
  deriving DecidableEq, Repr

/-- The field `jwt` is the array `unsigned char jwt[JWT_LENGTH]`; a value of
this type is well formed when `jwt.length = JWT_LENGTH`. -/
structure jwt_param_t where
  length : Nat
  jwt : List Nat
  deriving DecidableEq, Repr

/-! ## Observable actions -/

/-- Actions of the program that are visible outside it. -/
inductive Event where
  /-- `printf` of the given text. -/
  | printf (text : String)
  /-- `Cy_IPC_Drv_SendMsgPtr` of a pointer to a request holding these words. -/
  | sendMsgPtr (opCode api_param_addr : Nat)
  /-- One call of `Cy_IPC_Drv_IsLockAcquired`. -/
  | isLockAcquired
  /-- `Cy_SysLib_Delay` of the given number of milliseconds. -/
  | delay (ms : Nat)
  /-- The read of `paramRMA->opCode` at line 132, with the value read. -/
  | readOpCode (value : Nat)
  deriving DecidableEq, Repr

/-! ## ReadDeviceLifecycleStage (main.c lines 161-194) -/

/-- The four members of `cy_stc_efuse_data_t.LIFECYCLE_STAGE` the function
reads: `Cy_EFUSE_GetEfuseBit (offsetof (cy_stc_efuse_data_t,
LIFECYCLE_STAGE.X), &v)` stores the eFuse bit of member `X` in `v`. -/
structure LIFECYCLE_STAGE where
  NORMAL : Bool
  SECURE_WITH_DEBUG : Bool
  SECURE : Bool
  RMA : Bool
  deriving DecidableEq, Repr

/-- The function prints one line; the result is the list of texts printed. -/
def ReadDeviceLifecycleStage (efuse : LIFECYCLE_STAGE) : List String :=
  let bitVal_normal := efuse.NORMAL
  let bitVal_secDbg := efuse.SECURE_WITH_DEBUG
  let bitVal_secure := efuse.SECURE
  let bitVal_RMA := efuse.RMA
  -- `bitVal_normal` is read and never used
  let _ := bitVal_normal
  if bitVal_RMA then
    ["\r\nLife Cycle Stage : RMA\r\n"]
  else if bitVal_secDbg || bitVal_secure then
    if bitVal_secDbg then
      ["\r\nLife Cycle Stage : SECURE_DEBUG\r\n"]
    else
      ["\r\nLife Cycle Stage : SECURE\r\n"]
  else
    ["\r\nLife Cycle Stage : NORMAL\r\n"]

/-- The lifecycle stages of the specification. -/
inductive LifecycleStage where
  | NORMAL
  | SECURE
  | SECURE_WITH_DEBUG
  | RMA
  deriving DecidableEq, Repr

/-- The text the program prints for a stage. -/
def LifecycleStage.text : LifecycleStage → String
  | .NORMAL => "\r\nLife Cycle Stage : NORMAL\r\n"
  | .SECURE => "\r\nLife Cycle Stage : SECURE\r\n"
  | .SECURE_WITH_DEBUG => "\r\nLife Cycle Stage : SECURE_DEBUG\r\n"
  | .RMA => "\r\nLife Cycle Stage : RMA\r\n"

/-- The decoding as the specification words it (section 4.1): strict
priority, rma first, then secure-with-debug, then secure, else normal. -/
def specCurrentStage (normal secure secureWithDebug rma : Bool) : LifecycleStage :=
  let _ := normal
  if rma then .RMA
  else if secureWithDebug then .SECURE_WITH_DEBUG
  else if secure then .SECURE
  else .NORMAL

/-! ## TransitionToRMA (main.c lines 110-147) -/

/-- The two values of the PDL type `cy_en_ipcdrv_status_t`. -/
inductive cy_en_ipcdrv_status_t where
  | CY_IPC_DRV_SUCCESS
  | CY_IPC_DRV_ERROR
  deriving DecidableEq, Repr

/-- What the mailbox hardware and the privileged executor do during one call
of `TransitionToRMA`.

* `sendMsgPtr`: the value `Cy_IPC_Drv_SendMsgPtr` returns.
* `isLockAcquired k`: the value the `(k+1)`-th call of
  `Cy_IPC_Drv_IsLockAcquired` returns.
* `statusWord`: `some w` when the executor has stored `w` in the `opCode`
  field of the posted request before the program reads it back, `none` when
  the field still holds what the program posted. -/
structure IpcEnv where
  sendMsgPtr : cy_en_ipcdrv_status_t
  isLockAcquired : Nat → Bool
  statusWord : Option Nat

/-- The `while` loop of lines 119-128, entered with the given `elapsedTime`.
Every iteration makes one lock query and then increments `elapsedTime`, so the
query made when the counter is `elapsedTime` is query number `elapsedTime + 1`
of the call.  Returns the final `elapsedTime` and the actions performed. -/
def pollLoop (isLockAcquired : Nat → Bool) (elapsedTime : Nat) : Nat × List Event :=
  if elapsedTime < IPC_STATUS_WAIT_TIME_S then
    if isLockAcquired elapsedTime == false then
      (elapsedTime, [Event.isLockAcquired])
    else
      let r := pollLoop isLockAcquired (elapsedTime + 1)
      (r.1, Event.isLockAcquired :: Event.delay DELAY_IPC_STATUS_CHECK_MS :: r.2)
  else
    (elapsedTime, [])
termination_by IPC_STATUS_WAIT_TIME_S - elapsedTime
decreasing_by omega

/-- Result of one call of `TransitionToRMA`: the value returned, the request
structure as it stands in memory afterwards, and the actions performed. -/
structure CallOutcome where
  result : Nat
  paramRMA : transit_to_RMA_param_t
  trace : List Event

def TransitionToRMA (env : IpcEnv) (paramRMA : transit_to_RMA_param_t) : CallOutcome :=
  let result := FAILED
  let elapsedTime := 0
  let _ := result
  if env.sendMsgPtr = cy_en_ipcdrv_status_t.CY_IPC_DRV_SUCCESS then
    let polled := pollLoop env.isLockAcquired elapsedTime
    -- the executor may have overwritten the opCode field with its status word
    let opCode := env.statusWord.getD paramRMA.opCode
    let result := if opCode &&& CY_OPCODE_STS_Msk = CY_OPCODE_SUCCESS then SUCCESS else FAILED
    { result := result
      paramRMA := { paramRMA with opCode := opCode }
      trace := Event.sendMsgPtr paramRMA.opCode paramRMA.api_param_addr
                 :: (polled.2 ++ [Event.readOpCode opCode]) }
  else
    let result := FAILED
    { result := result
      paramRMA := paramRMA
      trace := [Event.sendMsgPtr paramRMA.opCode paramRMA.api_param_addr] }

/-! ## main (main.c lines 210-298) -/

/-- The C library function `strlen` on a character array given as its list of
bytes: the number of bytes before the first NUL byte.  (An array without a NUL
byte is not a C string; the model then counts the whole array.) -/
def strlen : List Nat → Nat
  | [] => 0
  | c :: cs => if c = 0 then 0 else strlen cs + 1

/-- The text of the string literal that initialises `char jwt[]`
(lines 219-224; the six adjacent literals are concatenated by the compiler). -/
def jwtLiteral : String :=
  "eyJhbGciOiJFUzI1NiIsInR5cCI6IkpXVCJ9.eyJhdXRoIjp7ImRpZV9pZCI" ++
  "6eyJtYXgiOnsiZGF5IjoyNTUsImxvdCI6MTY3NzcyMTUsIm1vbnRoIjoyNTUsIndh" ++
  "ZmVyIjoyNTUsInhwb3MiOjI1NSwieWVhciI6MjU1LCJ5cG9zIjoyNTV9LCJtaW4iO" ++
  "nsiZGF5IjowLCJsb3QiOjAsIm1vbnRoIjowLCJ3YWZlciI6MCwieHBvcyI6MCwieW" ++
  "VhciI6MCwieXBvcyI6MH19fX0.z6ePvuJTcY0z3azJFGpzcq0-4bxxpgfL7H-E4V-" ++
  "Dg6UGpwpLqf8pFXdMIXNXbQKCYW1Pq5HM7npZXNTUDtgEEw"

/-- The array `char jwt[]` of `main`: the bytes of the literal (all ASCII)
followed by the terminating NUL byte. -/
def jwt : List Nat := jwtLiteral.toList.map Char.toNat ++ [0]

/-- State of the copy loop of lines 270-273: the parameter block and the
indices `jwtIdx` at which `jwt_param.jwt[jwtIdx]` has been written, in order.
A write at an index outside the array leaves the modelled array as it is and
is still recorded in `writes`. -/
structure CopyState where
  jwt_param : jwt_param_t
  writes : List Nat
  deriving DecidableEq, Repr

/-- The loop body `jwt_param.jwt[jwtIdx] = jwt[jwtIdx];`. -/
def copyStep (jwt : List Nat) (st : CopyState) (jwtIdx : Nat) : CopyState :=
  { jwt_param := { st.jwt_param with jwt := st.jwt_param.jwt.set jwtIdx (jwt.getD jwtIdx 0) }
    writes := st.writes ++ [jwtIdx] }

/-- The loop `for (jwtIdx = 0; jwtIdx < length; jwtIdx++)`. -/
def copyLoop (jwt : List Nat) (length : Nat) (st : CopyState) : CopyState :=
  (List.range length).foldl (copyStep jwt) st

/-- The two local structures of `main` after lines 262-273, and the indices
written by the copy loop. -/
structure BuildOutcome where
  transitToRmaParam : transit_to_RMA_param_t
  jwt_param : jwt_param_t
  writes : List Nat
  deriving DecidableEq, Repr

/-- Lines 262-273 of `main` for a character array `jwt`.  `jwt_param_addr` is
the address `&jwt_param`; `stack` is the content of the local variable
`jwt_param`, which is declared without an initialiser (line 216). -/
def mainBuild (jwt_param_addr : Nat) (stack : jwt_param_t) (jwt : List Nat) : BuildOutcome :=
  let transitToRmaParam : transit_to_RMA_param_t :=
    { opCode := CY_TRANSIT_TO_RMA_OPCODE, api_param_addr := jwt_param_addr }
  let length := strlen jwt
  let jwt_param : jwt_param_t := { stack with length := length }
  let copied := copyLoop jwt length { jwt_param := jwt_param, writes := [] }
  { transitToRmaParam := transitToRmaParam
    jwt_param := copied.jwt_param
    writes := copied.writes }

/-- The variables of `main` that live across iterations of `for (;;)`. -/
structure MainState where
  transitToRmaParam : transit_to_RMA_param_t
  jwt_param : jwt_param_t
  rmaApiResult : Nat

/-- Inputs of one iteration of `for (;;)`: the value `cyhal_gpio_read` returns
(`false` when the button is pressed) and the behaviour of the mailbox during
the system call made in that iteration. -/
structure LoopInput where
  cyhal_gpio_read : Bool
  env : IpcEnv

/-- One iteration of the body of `for (;;)` (lines 280-296). -/
def loopIteration (st : MainState) (inp : LoopInput) : MainState × List Event :=
  if inp.cyhal_gpio_read == false then
    let out := TransitionToRMA inp.env st.transitToRmaParam
    let rmaApiResult := out.result
    ({ st with transitToRmaParam := out.paramRMA, rmaApiResult := rmaApiResult },
      Event.delay DELAY_BUTTON_DEBOUNCE_MS :: (out.trace ++
        [if rmaApiResult = SUCCESS then
            Event.printf "\r\nTransition to RMA successful\r\n"
          else
            Event.printf "\r\nTransition to RMA failed\r\n"]))
  else
    (st, [])

/-- The first iterations of `for (;;)`, one per element of the input list. -/
def mainLoop : List LoopInput → MainState → MainState × List Event
  | [], st => (st, [])
  | inp :: rest, st =>
    let r := loopIteration st inp
    let r2 := mainLoop rest r.1
    (r2.1, r.2 ++ r2.2)

/-- The function `main` from line 256 on, run for the given iterations of its
endless loop.  (Lines 227-254 bring up the board and touch none of the state
modelled here.) -/
def main (efuse : LIFECYCLE_STAGE) (jwt_param_addr : Nat) (stack : jwt_param_t)
    (iterations : List LoopInput) : MainState × List Event :=
  let rmaApiResult := FAILED
  let built := mainBuild jwt_param_addr stack jwt
  let r := mainLoop iterations
    { transitToRmaParam := built.transitToRmaParam
      jwt_param := built.jwt_param
      rmaApiResult := rmaApiResult }
  (r.1,
    Event.printf "\r\n***** PSoC 6 MCU : TransitionToRMA ***** \r\n\n"
      :: ((ReadDeviceLifecycleStage efuse).map Event.printf
      ++ [Event.printf "\r\n**Warning : After Device is in RMA, it cannot be moved to other LCS** \r\n",
          Event.printf "\r\nWaiting for User button (SW2) press to transition device to RMA \r\n"]
      ++ r.2))

/-- The requests posted to the mailbox, in order: the words of each
`sendMsgPtr` action of a trace. -/
def postedRequests : List Event → List (Nat × Nat)
  | [] => []
  | Event.sendMsgPtr opCode addr :: t => (opCode, addr) :: postedRequests t
  | _ :: t => postedRequests t

/-- Number of lock queries in a trace. -/
def lockQueries (t : List Event) : Nat := t.count Event.isLockAcquired

/-- The delays of a trace, in milliseconds, in order. -/
def delays : List Event → List Nat
  | [] => []
  | Event.delay ms :: t => ms :: delays t
  | _ :: t => delays t

/-- The actions of `n` iterations that found the lock held, followed by `t`. -/
def heldRounds : Nat → List Event → List Event
  | 0, t => t
  | n + 1, t =>
    Event.isLockAcquired :: Event.delay DELAY_IPC_STATUS_CHECK_MS :: heldRounds n t

/-! ## Theorems -/

/-! ### Helper lemmas: lifecycle decoding -/

theorem LifecycleStage.text_injective :
    ∀ s t : LifecycleStage, s.text = t.text → s = t := by
  intro s t h
  cases s <;> cases t <;> first | rfl | (exact absurd h (by decide))

/-! ### Helper lemmas: the status mask -/

/-- The mask keeps bits 28 to 31: the AND is the top nibble of the low 32
bits, moved back to its place. -/
theorem and_STS_Msk (w : Nat) : w &&& CY_OPCODE_STS_Msk = (w / 2 ^ 28 % 16) * 2 ^ 28 := by
  apply Nat.eq_of_testBit_eq
  intro i
  have hm : CY_OPCODE_STS_Msk = (2 ^ 4 - 1) <<< 28 := by decide
  have h16 : (16 : Nat) = 2 ^ 4 := by norm_num
  rw [Nat.testBit_and, hm, Nat.testBit_shiftLeft, Nat.testBit_two_pow_sub_one, h16,
    Nat.mul_comm, Nat.testBit_mul_pow_two, Nat.testBit_mod_two_pow,
    ← Nat.shiftRight_eq_div_pow, Nat.testBit_shiftRight]
  by_cases h : 28 ≤ i
  · by_cases h2 : i - 28 < 4
    · have h3 : 28 + (i - 28) = i := by omega
      simp [h, h2, h3]
    · simp [h, h2]
  · simp [h]

/-! ### Helper lemmas: the poll loop -/

theorem lockQueries_heldRounds (n : Nat) (t : List Event) :
    lockQueries (heldRounds n t) = n + lockQueries t := by
  induction n with
  | zero => simp [heldRounds]
  | succ n ih =>
    have h := ih
    simp only [lockQueries] at h ⊢
    simp [heldRounds, h]
    omega

theorem delays_heldRounds (n : Nat) (t : List Event) :
    delays (heldRounds n t) = List.replicate n DELAY_IPC_STATUS_CHECK_MS ++ delays t := by
  induction n with
  | zero => simp [heldRounds]
  | succ n ih => simp [heldRounds, delays, ih, List.replicate_succ]

theorem postedRequests_heldRounds (n : Nat) (t : List Event) :
    postedRequests (heldRounds n t) = postedRequests t := by
  induction n with
  | zero => simp [heldRounds]
  | succ n ih => simp [heldRounds, postedRequests, ih]

theorem postedRequests_append (s t : List Event) :
    postedRequests (s ++ t) = postedRequests s ++ postedRequests t := by
  induction s with
  | nil => simp [postedRequests]
  | cons e s ih => cases e <;> simp [postedRequests, ih]

theorem delays_append (s t : List Event) : delays (s ++ t) = delays s ++ delays t := by
  induction s with
  | nil => simp [delays]
  | cons e s ih => cases e <;> simp [delays, ih]

theorem lockQueries_append (s t : List Event) :
    lockQueries (s ++ t) = lockQueries s + lockQueries t := by
  simp [lockQueries]

/-- The loop either stops at the first index `k < 60` at which the lock is
reported released, after `k - elapsedTime` rounds with the lock held, or runs
until `elapsedTime` is 60 with the lock held at every query. -/
theorem pollLoop_shape (lock : Nat → Bool) :
    ∀ (n e : Nat), n = IPC_STATUS_WAIT_TIME_S - e → e ≤ IPC_STATUS_WAIT_TIME_S →
      (∃ k, e ≤ k ∧ k < IPC_STATUS_WAIT_TIME_S ∧ (∀ j, e ≤ j → j < k → lock j = true) ∧
          lock k = false ∧
          pollLoop lock e = (k, heldRounds (k - e) [Event.isLockAcquired])) ∨
      ((∀ j, e ≤ j → j < IPC_STATUS_WAIT_TIME_S → lock j = true) ∧
          pollLoop lock e = (IPC_STATUS_WAIT_TIME_S, heldRounds (IPC_STATUS_WAIT_TIME_S - e) [])) := by
  intro n
  induction n with
  | zero =>
    intro e hn he
    right
    have heq : e = IPC_STATUS_WAIT_TIME_S := by omega
    subst heq
    refine ⟨fun j h1 h2 => absurd h1 (by omega), ?_⟩
    rw [pollLoop]
    simp [heldRounds]
  | succ n ih =>
    intro e hn he
    have hlt : e < IPC_STATUS_WAIT_TIME_S := by omega
    rw [pollLoop]
    by_cases hl : lock e = false
    · left
      refine ⟨e, le_refl e, hlt, fun j h1 h2 => absurd h1 (by omega), hl, ?_⟩
      simp [hlt, hl, heldRounds]
    · have hl2 : lock e = true := by simpa using hl
      rcases ih (e + 1) (by omega) (by omega) with ⟨k, hek, hk, hheld, hrel, heq⟩ | ⟨hheld, heq⟩
      · left
        refine ⟨k, by omega, hk, ?_, hrel, ?_⟩
        · intro j h1 h2
          by_cases hje : j = e
          · subst hje; exact hl2
          · exact hheld j (by omega) h2
        · have hsub : k - e = (k - (e + 1)) + 1 := by omega
          simp [hlt, hl2, heq, hsub, heldRounds]
      · right
        refine ⟨?_, ?_⟩
        · intro j h1 h2
          by_cases hje : j = e
          · subst hje; exact hl2
          · exact hheld j (by omega) h2
        · have hsub : IPC_STATUS_WAIT_TIME_S - e = (IPC_STATUS_WAIT_TIME_S - (e + 1)) + 1 := by
            omega
          simp [hlt, hl2, heq, hsub, heldRounds]

/-- Lock seen released for the first time at query `k + 1`. -/
theorem pollLoop_released (lock : Nat → Bool) (k : Nat) (hk : k < IPC_STATUS_WAIT_TIME_S)
    (hheld : ∀ j, j < k → lock j = true) (hrel : lock k = false) :
    pollLoop lock 0 = (k, heldRounds k [Event.isLockAcquired]) := by
  rcases pollLoop_shape lock _ 0 rfl (Nat.zero_le _) with ⟨k2, _, hk2, hheld2, hrel2, heq⟩ | ⟨hall, _⟩
  · have hkk : k2 = k := by
      rcases Nat.lt_trichotomy k2 k with h | h | h
      · have := hheld k2 h
        rw [hrel2] at this
        exact absurd this (by decide)
      · exact h
      · have := hheld2 k (Nat.zero_le _) h
        rw [hrel] at this
        exact absurd this (by decide)
    subst hkk
    simpa using heq
  · have := hall k (Nat.zero_le _) hk
    rw [hrel] at this
    exact absurd this (by decide)

/-- Lock held at each of the 60 queries. -/
theorem pollLoop_timeout (lock : Nat → Bool)
    (hheld : ∀ j, j < IPC_STATUS_WAIT_TIME_S → lock j = true) :
    pollLoop lock 0 = (IPC_STATUS_WAIT_TIME_S, heldRounds IPC_STATUS_WAIT_TIME_S []) := by
  rcases pollLoop_shape lock _ 0 rfl (Nat.zero_le _) with ⟨k2, _, hk2, _, hrel2, _⟩ | ⟨_, heq⟩
  · have := hheld k2 hk2
    rw [hrel2] at this
    exact absurd this (by decide)
  · simpa using heq

/-- Whatever the lock does, the loop performs `n` held rounds for some
`n ≤ 60`, followed by at most one more query. -/
theorem pollLoop_bounded (lock : Nat → Bool) :
    ∃ n, n ≤ IPC_STATUS_WAIT_TIME_S ∧
      ((n < IPC_STATUS_WAIT_TIME_S ∧
          (pollLoop lock 0).2 = heldRounds n [Event.isLockAcquired]) ∨
        (n = IPC_STATUS_WAIT_TIME_S ∧ (pollLoop lock 0).2 = heldRounds n [])) := by
  rcases pollLoop_shape lock _ 0 rfl (Nat.zero_le _) with ⟨k, _, hk, _, _, heq⟩ | ⟨_, heq⟩
  · exact ⟨k, Nat.le_of_lt hk, Or.inl ⟨hk, by simpa using congrArg Prod.snd heq⟩⟩
  · exact ⟨IPC_STATUS_WAIT_TIME_S, le_refl _, Or.inr ⟨rfl, by simpa using congrArg Prod.snd heq⟩⟩

/-! ### Helper lemmas: one call of TransitionToRMA -/

theorem TransitionToRMA_posted (env : IpcEnv) (paramRMA : transit_to_RMA_param_t)
    (hsend : env.sendMsgPtr = cy_en_ipcdrv_status_t.CY_IPC_DRV_SUCCESS) :
    TransitionToRMA env paramRMA =
      { result := if env.statusWord.getD paramRMA.opCode &&& CY_OPCODE_STS_Msk
            = CY_OPCODE_SUCCESS then SUCCESS else FAILED
        paramRMA := { paramRMA with opCode := env.statusWord.getD paramRMA.opCode }
        trace := Event.sendMsgPtr paramRMA.opCode paramRMA.api_param_addr
          :: ((pollLoop env.isLockAcquired 0).2
            ++ [Event.readOpCode (env.statusWord.getD paramRMA.opCode)]) } := by
  simp [TransitionToRMA, hsend]

theorem TransitionToRMA_busy (env : IpcEnv) (paramRMA : transit_to_RMA_param_t)
    (hsend : env.sendMsgPtr ≠ cy_en_ipcdrv_status_t.CY_IPC_DRV_SUCCESS) :
    TransitionToRMA env paramRMA =
      { result := FAILED
        paramRMA := paramRMA
        trace := [Event.sendMsgPtr paramRMA.opCode paramRMA.api_param_addr] } := by
  simp [TransitionToRMA, hsend]

theorem postedRequests_TransitionToRMA (env : IpcEnv) (paramRMA : transit_to_RMA_param_t) :
    postedRequests (TransitionToRMA env paramRMA).trace
      = [(paramRMA.opCode, paramRMA.api_param_addr)] := by
  by_cases hsend : env.sendMsgPtr = cy_en_ipcdrv_status_t.CY_IPC_DRV_SUCCESS
  · rw [TransitionToRMA_posted env paramRMA hsend]
    rcases pollLoop_bounded env.isLockAcquired with ⟨n, _, ⟨_, h⟩ | ⟨_, h⟩⟩ <;>
      simp [postedRequests, postedRequests_append, postedRequests_heldRounds, h]
  · rw [TransitionToRMA_busy env paramRMA hsend]
    simp [postedRequests]

/-! ### Helper lemmas: strlen and the copy loop -/

theorem strlen_append_nul_le (cred : List Nat) : strlen (cred ++ [0]) ≤ cred.length := by
  induction cred with
  | nil => simp [strlen]
  | cons c cs ih =>
    by_cases hc : c = 0
    · simp [strlen, hc]
    · simp [strlen, hc, ih]

theorem strlen_append_nul_eq_iff (cred : List Nat) :
    strlen (cred ++ [0]) = cred.length ↔ ∀ b ∈ cred, b ≠ 0 := by
  induction cred with
  | nil => simp [strlen]
  | cons c cs ih =>
    by_cases hc : c = 0
    · simp [strlen, hc]
    · simp [strlen, hc, ih]

theorem strlen_le_length (jwt : List Nat) : strlen jwt ≤ jwt.length := by
  induction jwt with
  | nil => simp [strlen]
  | cons c cs ih =>
    by_cases hc : c = 0
    · simp [strlen, hc]
    · simp [strlen, hc, ih]

/-- What `n` rounds of the copy loop leave behind: the indices `0 .. n-1` are
appended to the write record, the `length` field is untouched, the array keeps
its size, cells below `n` hold the source bytes and cells from `n` on hold
what they held before. -/
theorem copyLoop_spec (jwt : List Nat) (st : CopyState) (n : Nat) :
    (copyLoop jwt n st).writes = st.writes ++ List.range n
    ∧ (copyLoop jwt n st).jwt_param.length = st.jwt_param.length
    ∧ (copyLoop jwt n st).jwt_param.jwt.length = st.jwt_param.jwt.length
    ∧ (∀ i, i < n → i < st.jwt_param.jwt.length →
        (copyLoop jwt n st).jwt_param.jwt[i]? = some (jwt.getD i 0))
    ∧ (∀ i, n ≤ i → (copyLoop jwt n st).jwt_param.jwt[i]? = st.jwt_param.jwt[i]?) := by
  induction n with
  | zero =>
    refine ⟨by simp [copyLoop], by simp [copyLoop], by simp [copyLoop], ?_, ?_⟩
    · intro i hi; omega
    · intro i _; simp [copyLoop]
  | succ n ih =>
    obtain ⟨hw, hl, hlen, hlow, hhigh⟩ := ih
    have hstep : copyLoop jwt (n + 1) st = copyStep jwt (copyLoop jwt n st) n := by
      simp [copyLoop, List.range_succ, List.foldl_append]
    rw [hstep]
    refine ⟨?_, ?_, ?_, ?_, ?_⟩
    · simp [copyStep, hw, List.range_succ]
    · simp [copyStep, hl]
    · simp [copyStep, hlen]
    · intro i hi hib
      by_cases hin : i = n
      · subst hin
        have hib2 : i < (copyLoop jwt i st).jwt_param.jwt.length := by rw [hlen]; exact hib
        simp [copyStep, List.getElem?_set_self hib2]
      · have hne : n ≠ i := fun h => hin h.symm
        simp only [copyStep]
        rw [List.getElem?_set_ne hne]
        exact hlow i (by omega) hib
    · intro i hi
      have hne : n ≠ i := by omega
      simp only [copyStep]
      rw [List.getElem?_set_ne hne]
      exact hhigh i (by omega)

/-- The parameter block and the write record after lines 262-273. -/
theorem mainBuild_spec (jwt_param_addr : Nat) (stack : jwt_param_t) (jwt : List Nat) :
    (mainBuild jwt_param_addr stack jwt).transitToRmaParam
        = { opCode := CY_TRANSIT_TO_RMA_OPCODE, api_param_addr := jwt_param_addr }
    ∧ (mainBuild jwt_param_addr stack jwt).writes = List.range (strlen jwt)
    ∧ (mainBuild jwt_param_addr stack jwt).jwt_param.length = strlen jwt
    ∧ (mainBuild jwt_param_addr stack jwt).jwt_param.jwt.length = stack.jwt.length
    ∧ (∀ i, i < strlen jwt → i < stack.jwt.length →
        (mainBuild jwt_param_addr stack jwt).jwt_param.jwt[i]? = some (jwt.getD i 0))
    ∧ (∀ i, strlen jwt ≤ i →
        (mainBuild jwt_param_addr stack jwt).jwt_param.jwt[i]? = stack.jwt[i]?) := by
  obtain ⟨hw, hl, hlen, hlow, hhigh⟩ :=
    copyLoop_spec jwt { jwt_param := { stack with length := strlen jwt }, writes := [] }
      (strlen jwt)
  exact ⟨rfl, by simpa [mainBuild] using hw, by simpa [mainBuild] using hl,
    by simpa [mainBuild] using hlen, by simpa [mainBuild] using hlow,
    by simpa [mainBuild] using hhigh⟩

/-- With a credential that fits, the first `strlen` cells of the array are
the credential. -/
theorem mainBuild_take (jwt_param_addr : Nat) (stack : jwt_param_t) (jwt : List Nat)
    (hfit : strlen jwt ≤ stack.jwt.length) :
    (mainBuild jwt_param_addr stack jwt).jwt_param.jwt.take (strlen jwt)
      = jwt.take (strlen jwt) := by
  obtain ⟨_, _, _, hlen, hlow, _⟩ := mainBuild_spec jwt_param_addr stack jwt
  have hsl := strlen_le_length jwt
  apply List.ext_getElem?
  intro i
  by_cases hi : i < strlen jwt
  · rw [List.getElem?_take_of_lt hi, List.getElem?_take_of_lt hi, hlow i hi (by omega)]
    have hij : i < jwt.length := by omega
    simp [List.getD_eq_getElem?_getD, List.getElem?_eq_getElem hij]
  · have h1 : ((mainBuild jwt_param_addr stack jwt).jwt_param.jwt.take (strlen jwt)).length ≤ i := by
      rw [List.length_take]; omega
    have h2 : (jwt.take (strlen jwt)).length ≤ i := by
      rw [List.length_take]; omega
    rw [List.getElem?_eq_none h1, List.getElem?_eq_none h2]

theorem postedRequests_printf (texts : List String) :
    postedRequests (texts.map Event.printf) = [] := by
  induction texts with
  | nil => rfl
  | cons t ts ih => simp [postedRequests, ih]

/-! ### Helper lemmas: the button loop -/

theorem loopIteration_pressed (st : MainState) (env : IpcEnv) :
    (loopIteration st { cyhal_gpio_read := false, env := env }).1.transitToRmaParam
        = (TransitionToRMA env st.transitToRmaParam).paramRMA
    ∧ postedRequests (loopIteration st { cyhal_gpio_read := false, env := env }).2
        = postedRequests (TransitionToRMA env st.transitToRmaParam).trace := by
  constructor
  · simp [loopIteration]
  · simp only [loopIteration, beq_self_eq_true, if_true, postedRequests, postedRequests_append]
    split <;> simp [postedRequests]

theorem mainLoop_posted_cons (inp : LoopInput) (rest : List LoopInput) (st : MainState) :
    postedRequests (mainLoop (inp :: rest) st).2
      = postedRequests (loopIteration st inp).2
        ++ postedRequests (mainLoop rest (loopIteration st inp).1).2 := by
  simp [mainLoop, postedRequests_append]

theorem main_posted (efuse : LIFECYCLE_STAGE) (jwt_param_addr : Nat) (stack : jwt_param_t)
    (iterations : List LoopInput) :
    postedRequests (main efuse jwt_param_addr stack iterations).2
      = postedRequests (mainLoop iterations
          { transitToRmaParam := (mainBuild jwt_param_addr stack jwt).transitToRmaParam
            jwt_param := (mainBuild jwt_param_addr stack jwt).jwt_param
            rmaApiResult := FAILED }).2 := by
  generalize hb : mainBuild jwt_param_addr stack jwt = built
  have hmain : ∀ b, mainBuild jwt_param_addr stack jwt = b →
      (main efuse jwt_param_addr stack iterations).2
        = Event.printf "\r\n***** PSoC 6 MCU : TransitionToRMA ***** \r\n\n"
          :: ((ReadDeviceLifecycleStage efuse).map Event.printf
          ++ [Event.printf "\r\n**Warning : After Device is in RMA, it cannot be moved to other LCS** \r\n",
              Event.printf "\r\nWaiting for User button (SW2) press to transition device to RMA \r\n"]
          ++ (mainLoop iterations
              { transitToRmaParam := b.transitToRmaParam
                jwt_param := b.jwt_param
                rmaApiResult := FAILED }).2) := by
    intro b hb2
    subst hb2
    rfl
  rw [hmain built hb]
  simp [postedRequests, postedRequests_append, postedRequests_printf]

/-! ### The claims -/

/-- C1: for every combination of the four eFuse bits the function prints the
text of exactly one lifecycle stage, and that stage is the one the strict
priority of the specification selects (RMA, else SECURE_WITH_DEBUG printed as
SECURE_DEBUG, else SECURE, else NORMAL); flipping the normal bit never changes
what is printed. -/
theorem C1_stage_priority (normal secureWithDebug secure rma : Bool) :
    ReadDeviceLifecycleStage
        { NORMAL := normal, SECURE_WITH_DEBUG := secureWithDebug, SECURE := secure, RMA := rma }
      = [(specCurrentStage normal secure secureWithDebug rma).text]
    ∧ (∃! s : LifecycleStage,
        ReadDeviceLifecycleStage
          { NORMAL := normal, SECURE_WITH_DEBUG := secureWithDebug, SECURE := secure, RMA := rma }
        = [s.text])
    ∧ ReadDeviceLifecycleStage
        { NORMAL := !normal, SECURE_WITH_DEBUG := secureWithDebug, SECURE := secure, RMA := rma }
      = ReadDeviceLifecycleStage
        { NORMAL := normal, SECURE_WITH_DEBUG := secureWithDebug, SECURE := secure, RMA := rma }
    ∧ (specCurrentStage normal secure secureWithDebug rma).text
      = (if rma then "\r\nLife Cycle Stage : RMA\r\n"
         else if secureWithDebug then "\r\nLife Cycle Stage : SECURE_DEBUG\r\n"
         else if secure then "\r\nLife Cycle Stage : SECURE\r\n"
         else "\r\nLife Cycle Stage : NORMAL\r\n") := by
  have hmain : ReadDeviceLifecycleStage
        { NORMAL := normal, SECURE_WITH_DEBUG := secureWithDebug, SECURE := secure, RMA := rma }
      = [(specCurrentStage normal secure secureWithDebug rma).text] := by
    cases normal <;> cases secureWithDebug <;> cases secure <;> cases rma <;> rfl
  refine ⟨hmain, ?_, ?_, ?_⟩
  · refine ⟨specCurrentStage normal secure secureWithDebug rma, hmain, ?_⟩
    intro s hs
    rw [hmain] at hs
    exact (LifecycleStage.text_injective _ _ (List.head_eq_of_cons_eq hs)).symm
  · cases normal <;> rfl
  · cases normal <;> cases secureWithDebug <;> cases secure <;> cases rma <;> rfl

/-- C2: when posting succeeds and one of the at most 60 lock queries reports
the lock released, the call reads the status word back from the opCode field
as its last action and returns SUCCESS exactly when that word masked with
0xF0000000 equals 0xA0000000, and FAILED otherwise; the word 0xA0000000 gives
SUCCESS, the word 0xF0000000 gives FAILED, and two status words that agree
above their low 28 bits give the same result. -/
theorem C2_status_word_decides (env : IpcEnv) (paramRMA : transit_to_RMA_param_t)
    (hsend : env.sendMsgPtr = cy_en_ipcdrv_status_t.CY_IPC_DRV_SUCCESS)
    (hrel : ∃ k, k < IPC_STATUS_WAIT_TIME_S ∧ env.isLockAcquired k = false) :
    (TransitionToRMA env paramRMA).trace.getLast?
        = some (Event.readOpCode (env.statusWord.getD paramRMA.opCode))
    ∧ ((TransitionToRMA env paramRMA).result = SUCCESS
        ↔ env.statusWord.getD paramRMA.opCode &&& 0xF0000000 = 0xA0000000)
    ∧ ((TransitionToRMA env paramRMA).result = FAILED
        ↔ env.statusWord.getD paramRMA.opCode &&& 0xF0000000 ≠ 0xA0000000)
    ∧ (env.statusWord = some 0xA0000000 → (TransitionToRMA env paramRMA).result = SUCCESS)
    ∧ (env.statusWord = some 0xF0000000 → (TransitionToRMA env paramRMA).result = FAILED)
    ∧ (∀ w : Nat, w / 2 ^ 28 = env.statusWord.getD paramRMA.opCode / 2 ^ 28 →
        (TransitionToRMA { env with statusWord := some w } paramRMA).result
          = (TransitionToRMA env paramRMA).result) := by
  have _ := hrel
  have hres : ∀ (e : IpcEnv), e.sendMsgPtr = cy_en_ipcdrv_status_t.CY_IPC_DRV_SUCCESS →
      (TransitionToRMA e paramRMA).result
        = if e.statusWord.getD paramRMA.opCode &&& CY_OPCODE_STS_Msk = CY_OPCODE_SUCCESS
          then SUCCESS else FAILED := by
    intro e he
    rw [TransitionToRMA_posted e paramRMA he]
  have hne : SUCCESS ≠ FAILED := by decide
  refine ⟨?_, ?_, ?_, ?_, ?_, ?_⟩
  · rw [TransitionToRMA_posted env paramRMA hsend]
    exact List.getLast?_concat (Event.sendMsgPtr paramRMA.opCode paramRMA.api_param_addr
      :: (pollLoop env.isLockAcquired 0).2)
  · rw [hres env hsend]
    show _ ↔ _ &&& CY_OPCODE_STS_Msk = CY_OPCODE_SUCCESS
    by_cases h : env.statusWord.getD paramRMA.opCode &&& CY_OPCODE_STS_Msk = CY_OPCODE_SUCCESS
    · simp [h]
    · simp [h, hne.symm]
  · rw [hres env hsend]
    show _ ↔ _ &&& CY_OPCODE_STS_Msk ≠ CY_OPCODE_SUCCESS
    by_cases h : env.statusWord.getD paramRMA.opCode &&& CY_OPCODE_STS_Msk = CY_OPCODE_SUCCESS
    · simp [h, hne]
    · simp [h]
  · intro hw
    rw [hres env hsend, hw, Option.getD_some]
    decide
  · intro hw
    rw [hres env hsend, hw, Option.getD_some]
    decide
  · intro w hw
    rw [hres env hsend, hres { env with statusWord := some w } hsend]
    simp only [Option.getD_some, and_STS_Msk, hw]

/-- Witness of C2: posting succeeds, the lock is released at the third query
and the executor stores the status word 0xA0000123. -/
theorem C2_status_word_decides_witness :
    (TransitionToRMA
        { sendMsgPtr := cy_en_ipcdrv_status_t.CY_IPC_DRV_SUCCESS
          isLockAcquired := fun k => decide (k < 2)
          statusWord := some 0xA0000123 }
        { opCode := CY_TRANSIT_TO_RMA_OPCODE, api_param_addr := 0x08001000 }).result = SUCCESS :=
  ((C2_status_word_decides
      { sendMsgPtr := cy_en_ipcdrv_status_t.CY_IPC_DRV_SUCCESS
        isLockAcquired := fun k => decide (k < 2)
        statusWord := some 0xA0000123 }
      { opCode := CY_TRANSIT_TO_RMA_OPCODE, api_param_addr := 0x08001000 }
      rfl ⟨2, by decide, by decide⟩).2.1).2 (by decide)

/-- C3 (the code departs from the claim): the request holds 0xA0000000 in its
opCode field, posting succeeds, the lock is reported held at each of the 60
queries and the executor stores nothing.  The call waits the full 60 delays of
1000 ms, then reads the opCode field all the same and returns SUCCESS. -/
theorem C3_timeout_returns_success :
    (TransitionToRMA
        { sendMsgPtr := cy_en_ipcdrv_status_t.CY_IPC_DRV_SUCCESS
          isLockAcquired := fun _ => true
          statusWord := none }
        { opCode := 0xA0000000, api_param_addr := 0x08001000 }).result = SUCCESS
    ∧ lockQueries (TransitionToRMA
        { sendMsgPtr := cy_en_ipcdrv_status_t.CY_IPC_DRV_SUCCESS
          isLockAcquired := fun _ => true
          statusWord := none }
        { opCode := 0xA0000000, api_param_addr := 0x08001000 }).trace = 60
    ∧ delays (TransitionToRMA
        { sendMsgPtr := cy_en_ipcdrv_status_t.CY_IPC_DRV_SUCCESS
          isLockAcquired := fun _ => true
          statusWord := none }
        { opCode := 0xA0000000, api_param_addr := 0x08001000 }).trace
      = List.replicate 60 1000
    ∧ SUCCESS ≠ FAILED := by
  rw [TransitionToRMA_posted _ _ rfl, pollLoop_timeout _ (fun _ _ => rfl)]
  refine ⟨by decide, ?_, ?_, by decide⟩
  · simp only [lockQueries_append, lockQueries_heldRounds, lockQueries, List.count_cons,
      List.count_nil]
    decide
  · simp only [delays, delays_append, delays_heldRounds]
    decide

/-- C4: when `Cy_IPC_Drv_SendMsgPtr` returns anything other than
CY_IPC_DRV_SUCCESS the call returns FAILED, its only action is the one attempt
to post (no lock query, no delay, no read of the opCode field), and the request
structure is left as it was. -/
theorem C4_busy_fails_at_once (env : IpcEnv) (paramRMA : transit_to_RMA_param_t)
    (hsend : env.sendMsgPtr ≠ cy_en_ipcdrv_status_t.CY_IPC_DRV_SUCCESS) :
    (TransitionToRMA env paramRMA).result = FAILED
    ∧ FAILED ≠ SUCCESS
    ∧ (TransitionToRMA env paramRMA).trace
        = [Event.sendMsgPtr paramRMA.opCode paramRMA.api_param_addr]
    ∧ lockQueries (TransitionToRMA env paramRMA).trace = 0
    ∧ delays (TransitionToRMA env paramRMA).trace = []
    ∧ (∀ w, Event.readOpCode w ∉ (TransitionToRMA env paramRMA).trace)
    ∧ (TransitionToRMA env paramRMA).paramRMA = paramRMA := by
  rw [TransitionToRMA_busy env paramRMA hsend]
  refine ⟨rfl, by decide, rfl, ?_, ?_, ?_, rfl⟩
  · simp [lockQueries]
  · simp [delays]
  · intro w
    simp

/-- Witness of C4: the mailbox is busy, whatever the lock and the opCode field
would have shown. -/
theorem C4_busy_fails_at_once_witness :
    (TransitionToRMA
        { sendMsgPtr := cy_en_ipcdrv_status_t.CY_IPC_DRV_ERROR
          isLockAcquired := fun _ => false
          statusWord := some 0xA0000000 }
        { opCode := 0xA0000000, api_param_addr := 0x08001000 }).result = FAILED :=
  (C4_busy_fails_at_once
      { sendMsgPtr := cy_en_ipcdrv_status_t.CY_IPC_DRV_ERROR
        isLockAcquired := fun _ => false
        statusWord := some 0xA0000000 }
      { opCode := 0xA0000000, api_param_addr := 0x08001000 }
      (by decide)).1

/-- C5: one call posts the request exactly once; it makes at most 60 lock
queries and at most 60 delays, each of 1000 ms (at most 60000 ms in all); when
posting succeeds and the lock is first reported released at query `k`
(`1 ≤ k ≤ 60`) the call makes exactly `k` queries and `k - 1` delays, and when
the lock is reported held at each of the 60 queries it makes exactly 60
queries and 60 delays. -/
theorem C5_poll_loop_bounded (env : IpcEnv) (paramRMA : transit_to_RMA_param_t) :
    postedRequests (TransitionToRMA env paramRMA).trace
        = [(paramRMA.opCode, paramRMA.api_param_addr)]
    ∧ lockQueries (TransitionToRMA env paramRMA).trace ≤ 60
    ∧ (∃ n, n ≤ 60 ∧ delays (TransitionToRMA env paramRMA).trace = List.replicate n 1000)
    ∧ (delays (TransitionToRMA env paramRMA).trace).sum ≤ 60000
    ∧ (env.sendMsgPtr = cy_en_ipcdrv_status_t.CY_IPC_DRV_SUCCESS →
        ∀ k, 1 ≤ k → k ≤ 60 →
          (∀ j, j < k - 1 → env.isLockAcquired j = true) →
          env.isLockAcquired (k - 1) = false →
          lockQueries (TransitionToRMA env paramRMA).trace = k
          ∧ delays (TransitionToRMA env paramRMA).trace = List.replicate (k - 1) 1000)
    ∧ (env.sendMsgPtr = cy_en_ipcdrv_status_t.CY_IPC_DRV_SUCCESS →
        (∀ j, j < 60 → env.isLockAcquired j = true) →
          lockQueries (TransitionToRMA env paramRMA).trace = 60
          ∧ delays (TransitionToRMA env paramRMA).trace = List.replicate 60 1000) := by
  have hq1 : lockQueries [Event.isLockAcquired] = 1 := by decide
  have hq0 : ∀ w, lockQueries [Event.readOpCode w] = 0 := by
    intro w; simp [lockQueries]
  have hsendq : ∀ (a b : Nat) (t : List Event),
      lockQueries (Event.sendMsgPtr a b :: t) = lockQueries t := by
    intro a b t; simp [lockQueries]
  have hsendd : ∀ (a b : Nat) (t : List Event),
      delays (Event.sendMsgPtr a b :: t) = delays t := by
    intro a b t; simp [delays]
  have hbound : lockQueries (TransitionToRMA env paramRMA).trace ≤ 60
      ∧ ∃ n, n ≤ 60 ∧ delays (TransitionToRMA env paramRMA).trace = List.replicate n 1000 := by
    by_cases hsend : env.sendMsgPtr = cy_en_ipcdrv_status_t.CY_IPC_DRV_SUCCESS
    · rw [TransitionToRMA_posted env paramRMA hsend]
      simp only [hsendq, hsendd, lockQueries_append, delays_append, hq0]
      rcases pollLoop_bounded env.isLockAcquired with ⟨n, hn, ⟨hlt, h⟩ | ⟨_, h⟩⟩
      · rw [h, lockQueries_heldRounds, delays_heldRounds, hq1]
        have hlt2 : n < 60 := hlt
        exact ⟨by omega, n, hn, by simp [delays, DELAY_IPC_STATUS_CHECK_MS]⟩
      · rw [h, lockQueries_heldRounds, delays_heldRounds]
        have hn2 : n ≤ 60 := hn
        refine ⟨by simp [lockQueries]; exact hn2, n, hn, by simp [delays, DELAY_IPC_STATUS_CHECK_MS]⟩
    · rw [TransitionToRMA_busy env paramRMA hsend]
      exact ⟨by simp [lockQueries], 0, by omega, by simp [delays]⟩
  refine ⟨postedRequests_TransitionToRMA env paramRMA, hbound.1, hbound.2, ?_, ?_, ?_⟩
  · rcases hbound.2 with ⟨n, hn, h⟩
    rw [h, List.sum_replicate, smul_eq_mul]
    omega
  · intro hsend k hk1 hk60 hheld hrel
    have hk : k - 1 < IPC_STATUS_WAIT_TIME_S := by
      show k - 1 < 60
      omega
    rw [TransitionToRMA_posted env paramRMA hsend,
      pollLoop_released env.isLockAcquired (k - 1) hk hheld hrel]
    simp only [hsendq, hsendd, lockQueries_append, delays_append, hq0,
      lockQueries_heldRounds, delays_heldRounds, hq1]
    refine ⟨by omega, by simp [delays, DELAY_IPC_STATUS_CHECK_MS]⟩
  · intro hsend hheld
    rw [TransitionToRMA_posted env paramRMA hsend,
      pollLoop_timeout env.isLockAcquired hheld]
    simp only [hsendq, hsendd, lockQueries_append, delays_append, hq0,
      lockQueries_heldRounds, delays_heldRounds]
    refine ⟨by simp [lockQueries, IPC_STATUS_WAIT_TIME_S],
      by simp [delays, DELAY_IPC_STATUS_CHECK_MS, IPC_STATUS_WAIT_TIME_S]⟩

/-- Witness of C5: posting succeeds and the lock is first reported released at
the third query, so the call makes three queries and two delays. -/
theorem C5_poll_loop_bounded_witness :
    lockQueries (TransitionToRMA
        { sendMsgPtr := cy_en_ipcdrv_status_t.CY_IPC_DRV_SUCCESS
          isLockAcquired := fun k => decide (k < 2)
          statusWord := some 0xA0000000 }
        { opCode := CY_TRANSIT_TO_RMA_OPCODE, api_param_addr := 0x08001000 }).trace = 3
    ∧ delays (TransitionToRMA
        { sendMsgPtr := cy_en_ipcdrv_status_t.CY_IPC_DRV_SUCCESS
          isLockAcquired := fun k => decide (k < 2)
          statusWord := some 0xA0000000 }
        { opCode := CY_TRANSIT_TO_RMA_OPCODE, api_param_addr := 0x08001000 }).trace
      = List.replicate 2 1000 :=
  (C5_poll_loop_bounded
      { sendMsgPtr := cy_en_ipcdrv_status_t.CY_IPC_DRV_SUCCESS
        isLockAcquired := fun k => decide (k < 2)
        statusWord := some 0xA0000000 }
      { opCode := CY_TRANSIT_TO_RMA_OPCODE, api_param_addr := 0x08001000 }).2.2.2.2.1
    rfl 3 (by decide) (by decide) (by decide) (by decide)

set_option maxRecDepth 100000 in
/-- C6 as stated fails: the credential 65, 66, 0, 67, 68 has length 5, which is
at most 367, and the block built by `main` records the length 2; the first
five cells of the array are 65, 66 and three bytes of the prior content, not
the credential. -/
theorem C6_embedded_nul_cuts_credential :
    [65, 66, 0, 67, 68].length ≤ JWT_LENGTH
    ∧ (mainBuild 0x08001000 { length := 0, jwt := List.replicate 367 255 }
        ([65, 66, 0, 67, 68] ++ [0])).jwt_param.length = 2
    ∧ (2 : Nat) ≠ [65, 66, 0, 67, 68].length
    ∧ (mainBuild 0x08001000 { length := 0, jwt := List.replicate 367 255 }
        ([65, 66, 0, 67, 68] ++ [0])).jwt_param.jwt.take 5 = [65, 66, 255, 255, 255]
    ∧ [65, 66, 255, 255, 255] ≠ [65, 66, 0, 67, 68] := by
  decide

/-- C6 amended: for every credential (any bytes) of length at most 367, held
in a NUL-terminated character array, and every well-formed prior content of
`jwt_param`, the block built by `main` records the length `strlen` finds, that
is the number of credential bytes before the first NUL byte, which is at most
the credential length; the first `length` bytes of its array are the first
`length` bytes of the credential, in order; the array keeps its 367 cells; and
the full round trip (recorded length equal to the credential length and the
first `length` bytes equal to the credential) holds exactly when the
credential contains no NUL byte. -/
theorem C6_round_trip_up_to_first_nul (jwt_param_addr : Nat) (stack : jwt_param_t)
    (cred : List Nat) (hfit : cred.length ≤ JWT_LENGTH)
    (hstack : stack.jwt.length = JWT_LENGTH) :
    (mainBuild jwt_param_addr stack (cred ++ [0])).jwt_param.length = strlen (cred ++ [0])
    ∧ (mainBuild jwt_param_addr stack (cred ++ [0])).jwt_param.length ≤ cred.length
    ∧ (mainBuild jwt_param_addr stack (cred ++ [0])).jwt_param.jwt.take
        (mainBuild jwt_param_addr stack (cred ++ [0])).jwt_param.length
      = cred.take (mainBuild jwt_param_addr stack (cred ++ [0])).jwt_param.length
    ∧ (mainBuild jwt_param_addr stack (cred ++ [0])).jwt_param.jwt.length = JWT_LENGTH
    ∧ (((mainBuild jwt_param_addr stack (cred ++ [0])).jwt_param.length = cred.length
        ∧ (mainBuild jwt_param_addr stack (cred ++ [0])).jwt_param.jwt.take
            (mainBuild jwt_param_addr stack (cred ++ [0])).jwt_param.length = cred)
      ↔ ∀ b ∈ cred, b ≠ 0) := by
  have hle := strlen_append_nul_le cred
  obtain ⟨_, _, hl, hlen, _, _⟩ := mainBuild_spec jwt_param_addr stack (cred ++ [0])
  have ht := mainBuild_take jwt_param_addr stack (cred ++ [0]) (by rw [hstack]; omega)
  have htake : (mainBuild jwt_param_addr stack (cred ++ [0])).jwt_param.jwt.take
        (mainBuild jwt_param_addr stack (cred ++ [0])).jwt_param.length
      = cred.take (mainBuild jwt_param_addr stack (cred ++ [0])).jwt_param.length := by
    rw [hl, ht, List.take_append_of_le_length hle]
  refine ⟨hl, by rw [hl]; exact hle, htake, by rw [hlen, hstack], ?_⟩
  constructor
  · intro h
    exact (strlen_append_nul_eq_iff cred).mp (by rw [← hl]; exact h.1)
  · intro hnul
    have hs := (strlen_append_nul_eq_iff cred).mpr hnul
    have hlc : (mainBuild jwt_param_addr stack (cred ++ [0])).jwt_param.length = cred.length := by
      rw [hl, hs]
    refine ⟨hlc, ?_⟩
    rw [htake, hlc, List.take_length]

set_option maxRecDepth 100000 in
/-- Witness of C6 amended: a credential of exactly 367 bytes, the boundary
length, none of them NUL; the round trip holds. -/
theorem C6_round_trip_up_to_first_nul_witness :
    (mainBuild 0x08001000 { length := 0, jwt := List.replicate 367 255 }
        (List.replicate 367 65 ++ [0])).jwt_param.length = (List.replicate 367 65).length
    ∧ (mainBuild 0x08001000 { length := 0, jwt := List.replicate 367 255 }
          (List.replicate 367 65 ++ [0])).jwt_param.jwt.take
        (mainBuild 0x08001000 { length := 0, jwt := List.replicate 367 255 }
          (List.replicate 367 65 ++ [0])).jwt_param.length = List.replicate 367 65 :=
  (C6_round_trip_up_to_first_nul 0x08001000 { length := 0, jwt := List.replicate 367 255 }
    (List.replicate 367 65) (by decide) (by decide)).2.2.2.2.mpr (by decide)

set_option maxRecDepth 100000 in
/-- C8 as stated fails: with a one-byte credential and a prior content of 255
in every cell, the cell at index 1 still holds 255 after the build. -/
theorem C8_stale_byte_survives :
    ∃ i, [65].length ≤ i ∧ i < JWT_LENGTH
      ∧ (mainBuild 0x08001000 { length := 0, jwt := List.replicate 367 255 }
          ([65] ++ [0])).jwt_param.jwt[i]? = some 255
      ∧ (255 : Nat) ≠ 0 :=
  ⟨1, by decide, by decide, by decide, by decide⟩

/-- C8 amended: for every credential (any bytes) of length `n` at most 367,
held in a NUL-terminated character array, and every well-formed prior content
of `jwt_param`, after the build every cell of the array at an index `i` with
`n ≤ i < 367` holds the byte it held before the build: nothing zeroes the
array. -/
theorem C8_tail_keeps_prior_content (jwt_param_addr : Nat) (stack : jwt_param_t)
    (cred : List Nat) (hfit : cred.length ≤ JWT_LENGTH)
    (hstack : stack.jwt.length = JWT_LENGTH) (i : Nat) (hlo : cred.length ≤ i)
    (hhi : i < JWT_LENGTH) :
    ∃ b, stack.jwt[i]? = some b
      ∧ (mainBuild jwt_param_addr stack (cred ++ [0])).jwt_param.jwt[i]? = some b := by
  have _ := hfit
  have hle := strlen_append_nul_le cred
  obtain ⟨_, _, _, _, _, hhigh⟩ := mainBuild_spec jwt_param_addr stack (cred ++ [0])
  have hi : i < stack.jwt.length := by rw [hstack]; exact hhi
  refine ⟨stack.jwt[i], List.getElem?_eq_getElem hi, ?_⟩
  rw [hhigh i (by omega)]
  exact List.getElem?_eq_getElem hi

set_option maxRecDepth 100000 in
/-- Witness of C8 amended: the credential 65, 66, 0, 67, 68 over a prior
content of 255 in every cell, at index 5. -/
theorem C8_tail_keeps_prior_content_witness :
    ∃ b, (List.replicate 367 255)[5]? = some b
      ∧ (mainBuild 0x08001000 { length := 0, jwt := List.replicate 367 255 }
          ([65, 66, 0, 67, 68] ++ [0])).jwt_param.jwt[5]? = some b :=
  C8_tail_keeps_prior_content 0x08001000 { length := 0, jwt := List.replicate 367 255 }
    [65, 66, 0, 67, 68] (by decide) (by decide) 5 (by decide) (by decide)

set_option maxRecDepth 100000 in
/-- The literal of `main` has 367 characters, none of them NUL. -/
theorem strlen_jwt : strlen jwt = 367 ∧ jwt.length = 368 := by
  decide

/-- C9 (the code departs from the claim): the button is pressed in two
iterations of the loop; at the first attempt posting succeeds, the lock is
released at once and the executor stores the status word 0xF0000000 in the
opCode field.  The first attempt posts the operation code 0x3B000000, and the
second attempt, whatever the mailbox does then, posts 0xF0000000 as its
operation code: the request is built once, before the loop, and is not built
again. -/
theorem C9_second_attempt_posts_status_word (efuse : LIFECYCLE_STAGE) (jwt_param_addr : Nat)
    (stack : jwt_param_t) (env2 : IpcEnv) :
    postedRequests (main efuse jwt_param_addr stack
        [ { cyhal_gpio_read := false
            env := { sendMsgPtr := cy_en_ipcdrv_status_t.CY_IPC_DRV_SUCCESS
                     isLockAcquired := fun _ => false
                     statusWord := some 0xF0000000 } },
          { cyhal_gpio_read := false, env := env2 } ]).2
      = [(0x3B000000, jwt_param_addr), (0xF0000000, jwt_param_addr)]
    ∧ (0xF0000000 : Nat) ≠ CY_TRANSIT_TO_RMA_OPCODE := by
  refine ⟨?_, by decide⟩
  rw [main_posted, (mainBuild_spec jwt_param_addr stack jwt).1, mainLoop_posted_cons,
    mainLoop_posted_cons]
  simp only [loopIteration_pressed, postedRequests_TransitionToRMA]
  rw [TransitionToRMA_posted
    { sendMsgPtr := cy_en_ipcdrv_status_t.CY_IPC_DRV_SUCCESS
      isLockAcquired := fun _ => false
      statusWord := some 0xF0000000 } _ rfl]
  simp [mainLoop, postedRequests, CY_TRANSIT_TO_RMA_OPCODE]

/-- C10: the literal configured in `main` has length 367, which is JWT_LENGTH;
for every well-formed prior content of `jwt_param` the copy loop of `main`
writes exactly at the indices 0 to 366, all inside the array, the recorded
length is 367, and afterwards the array consists of the 367 bytes of the
literal, so every cell has been overwritten by a credential byte. -/
theorem C10_configured_jwt_fills_buffer (efuse : LIFECYCLE_STAGE) (jwt_param_addr : Nat)
    (stack : jwt_param_t) (hstack : stack.jwt.length = JWT_LENGTH) :
    strlen jwt = 367 ∧ JWT_LENGTH = 367
    ∧ (mainBuild jwt_param_addr stack jwt).writes = List.range 367
    ∧ (∀ i ∈ (mainBuild jwt_param_addr stack jwt).writes, i < JWT_LENGTH)
    ∧ (∀ i, i < JWT_LENGTH → i ∈ (mainBuild jwt_param_addr stack jwt).writes)
    ∧ (main efuse jwt_param_addr stack []).1.jwt_param
        = { length := 367, jwt := jwtLiteral.toList.map Char.toNat } := by
  obtain ⟨hs, hjl⟩ := strlen_jwt
  obtain ⟨_, hw, hl, hlen, _, _⟩ := mainBuild_spec jwt_param_addr stack jwt
  have ht := mainBuild_take jwt_param_addr stack jwt (by rw [hs, hstack]; decide)
  have hJ : JWT_LENGTH = 367 := rfl
  rw [hs] at hw hl ht
  refine ⟨hs, hJ, hw, ?_, ?_, ?_⟩
  · intro i hi
    rw [hw] at hi
    rw [hJ]
    exact List.mem_range.mp hi
  · intro i hi
    rw [hw]
    exact List.mem_range.mpr (by rw [← hJ]; exact hi)
  · have hfull : (mainBuild jwt_param_addr stack jwt).jwt_param.jwt
        = jwtLiteral.toList.map Char.toNat := by
      have h1 : (mainBuild jwt_param_addr stack jwt).jwt_param.jwt.take 367
          = (mainBuild jwt_param_addr stack jwt).jwt_param.jwt :=
        List.take_of_length_le (by rw [hlen, hstack, hJ])
      have hlit : (jwtLiteral.toList.map Char.toNat).length = 367 := by
        have : (jwtLiteral.toList.map Char.toNat ++ [0]).length = 368 := hjl
        simpa using this
      have h2 : jwt.take 367 = jwtLiteral.toList.map Char.toNat := by
        show (jwtLiteral.toList.map Char.toNat ++ [0]).take 367 = _
        rw [List.take_append_of_le_length (by rw [hlit]), List.take_of_length_le (by rw [hlit])]
      rw [← h1, ht, h2]
    show (mainLoop [] _).1.jwt_param = _
    simp only [mainLoop]
    cases hmb : (mainBuild jwt_param_addr stack jwt).jwt_param with
    | mk len arr =>
      rw [hmb] at hl hfull
      simp only at hl hfull
      rw [hl, hfull]

set_option maxRecDepth 100000 in
/-- Witness of C10: a prior content of 255 in every cell. -/
theorem C10_configured_jwt_fills_buffer_witness :
    (mainBuild 0x08001000 { length := 0, jwt := List.replicate 367 255 } jwt).writes
      = List.range 367 :=
  (C10_configured_jwt_fills_buffer
    { NORMAL := true, SECURE_WITH_DEBUG := false, SECURE := true, RMA := false }
    0x08001000 { length := 0, jwt := List.replicate 367 255 } (by decide)).2.2.1

end TransitionToRma
